import Mathlib

/-!
Shallow embedding of `src/sub_enum.py` (SecurityTrails subdomain enumeration
tool): the `SecurityTrailsClient` constructor, the `_get`/`_post` retry loops,
`list_subdomains`, `search_subdomains`, and `merge_sources`, together with
theorems settling the specification claims about them.

JSON payloads are modelled by an inductive `Json` value; Python's truthiness,
`or`, `dict.get`, `str.endswith`, string ordering and iteration are embedded
explicitly.  Exceptions are modelled with `Option`/`Except`.  Sleep durations
(floats in the source) are modelled as rationals.
-/

namespace SubEnum

/-- JSON-like values as decoded by `requests.Response.json()` in the source.
Python dicts are association lists (keys unique in any real JSON document);
lookup takes the first binding. -/
inductive Json where
  | null : Json
  | bool (b : Bool) : Json
  | num (n : Int) : Json
  | str (s : String) : Json
  | arr (items : List Json) : Json
  | obj (fields : List (String × Json)) : Json

/-- Python `dict.get(k)` / `k in d`: first binding for the key, if any. -/
def Json.lookup (fields : List (String × Json)) (key : String) : Option Json :=
  match fields with
  | [] => none
  | (k, v) :: rest => if k = key then some v else Json.lookup rest key

/-- Python truthiness of a JSON value (`if x:`): `None`, `False`, `0`, `""`,
`[]`, `{}` are falsy, everything else truthy. -/
def Json.truthy : Json → Bool
  | .null => false
  | .bool b => b
  | .num n => n != 0
  | .str s => !s.data.isEmpty
  | .arr items => !items.isEmpty
  | .obj fields => !fields.isEmpty

/-- Python `a or b` on optional JSON values: `a` when it is present and
truthy, otherwise `b` (a missing key behaves as `None`, which is falsy). -/
def pyOr (a b : Option Json) : Option Json :=
  match a with
  | some v => if v.truthy then some v else b
  | none => b

/-- Python `s.endswith(suffix)`: `suffix` is a suffix of `s` (exact,
case-sensitive match on the character sequence). -/
def pyEndsWith (s suffix : String) : Bool :=
  suffix.data.isSuffixOf s.data

/-- Python iteration `for x in v` over a JSON value: lists yield their items,
strings yield their characters (as one-character strings), dicts yield their
keys; numbers, booleans and `None` are not iterable (`TypeError`). -/
def Json.iter : Json → Option (List Json)
  | .arr items => some items
  | .str s => some (s.data.map (fun c => Json.str c.toString))
  | .obj fields => some (fields.map (fun kv => Json.str kv.1))
  | _ => none

/-- Extract a Python `str`; any other value raises when a string method such
as `.endswith` is invoked on it (`AttributeError`). -/
def Json.asStr : Json → Option String
  | .str s => some s
  | _ => none

/-- Lexicographic code-point comparison of character lists, matching Python's
`<=` on `str` (compare code points position by position; a proper prefix is
smaller). -/
def charListLe : List Char → List Char → Bool
  | [], _ => true
  | _ :: _, [] => false
  | a :: as, b :: bs => if a = b then charListLe as bs else decide (a.toNat < b.toNat)

/-- Python `a <= b` on strings: lexicographic by code points. -/
def strLe (a b : String) : Bool :=
  charListLe a.data b.data

/-- The string order as a relation, for use with `List.insertionSort` and
`List.Sorted`. -/
def strLeR (a b : String) : Prop :=
  strLe a b = true

instance : DecidableRel strLeR :=
  fun a b => inferInstanceAs (Decidable (strLe a b = true))

/-- Model of `sorted(set(xs))` from the source (used by `list_subdomains`,
`search_subdomains` and `merge_sources`): deduplicate, then sort
lexicographically by code points, as Python's `sorted` does on `str`. -/
def sortedDedup (l : List String) : List String :=
  List.insertionSort strLeR l.dedup

/-! Client construction (`SecurityTrailsClient.__init__`, lines 31-48)

`self.api_key = api_key or os.getenv("SECURITYTRAILS_APIKEY")`, then
`if not self.api_key: raise ValueError(...)`.  `api_key` and the environment
variable are each either absent (`None` / unset) or a string. -/

/-- The credential after `api_key or os.getenv(...)`: the explicit argument
when it is a non-empty (truthy) string, otherwise the environment value. -/
def resolveCredential (api_key env : Option String) : Option String :=
  match api_key with
  | some k => if k.data.isEmpty then env else some k
  | none => env

/-- Embeds `SecurityTrailsClient.__init__` restricted to credential resolution:
returns the stored `api_key` or the `ValueError` message raised when the
resolved credential is falsy (`None` or `""`). -/
def clientInit (api_key env : Option String) : Except String String :=
  match resolveCredential api_key env with
  | some k =>
      if k.data.isEmpty then
        .error "SecurityTrails API key not provided. Set SECURITYTRAILS_APIKEY or pass api_key param."
      else .ok k
  | none =>
      .error "SecurityTrails API key not provided. Set SECURITYTRAILS_APIKEY or pass api_key param."

/-- A credential source yields a non-empty credential. -/
def credPresent : Option String → Bool
  | some s => !s.data.isEmpty
  | none => false

/-- The computation raised (`Except.error`). -/
def isError : Except String String → Bool
  | .error _ => true
  | .ok _ => false

/-! Request layer (`_get` lines 53-70, `_post` lines 75-91)

Both verbs run the identical loop `for attempt in range(1, retries + 1)`:
on status 200 return `r.json()`; on 429 sleep `backoff * attempt` and
continue; on any other status call `r.raise_for_status()` (which raises
exactly for codes >= 400; the raise is caught and the loop sleeps
`backoff * attempt`); a transport fault (`requests.RequestException`) is
caught the same way.  A non-200 status below 400 raises nothing and the
loop proceeds to the next attempt without sleeping.  After the loop a
`RuntimeError` names the URL and the attempt count. -/

/-- What the transport produces on one attempt: an HTTP response with a
status code and decoded body, or a transport-level fault
(`requests.RequestException`: connection error, timeout, ...). -/
inductive Outcome where
  | response (code : Nat) (body : Json) : Outcome
  | transportError : Outcome

/-- The attempt succeeded with HTTP 200. -/
def Outcome.is200 : Outcome → Bool
  | .response 200 _ => true
  | _ => false

/-- One pass of the retry loop over the listed attempt numbers.  Returns the
decoded 200 body if some attempt succeeds, the sleeps performed (in order),
and the number of attempts actually made. -/
def requestAttempts (transport : Nat → Outcome) (backoff : ℚ) :
    List Nat → Option Json × List ℚ × Nat
  | [] => (none, [], 0)
  | a :: rest =>
    match transport a with
    | .response code body =>
        if code = 200 then (some body, [], 1)
        else
          let next := requestAttempts transport backoff rest
          if code = 429 then
            -- rate limited: sleep backoff * attempt, retry
            (next.1, backoff * (a : ℚ) :: next.2.1, next.2.2 + 1)
          else if 400 ≤ code then
            -- raise_for_status() throws, caught below: warn, sleep, retry
            (next.1, backoff * (a : ℚ) :: next.2.1, next.2.2 + 1)
          else
            -- raise_for_status() is a no-op below 400: next attempt, no sleep
            (next.1, next.2.1, next.2.2 + 1)
    | .transportError =>
        -- requests.RequestException caught: warn, sleep, retry
        let next := requestAttempts transport backoff rest
        (next.1, backoff * (a : ℚ) :: next.2.1, next.2.2 + 1)

/-- Shared body of `_get` and `_post`: run attempts `1, ..., retries`; on
exhaustion raise `RuntimeError(f"{verb} request to {url} failed after
{retries} attempts")`. -/
def httpRequest (verb url : String) (transport : Nat → Outcome) (retries : Nat)
    (backoff : ℚ) : Except String Json × List ℚ × Nat :=
  (match (requestAttempts transport backoff (List.range' 1 retries)).1 with
   | some body => Except.ok body
   | none =>
      Except.error (verb ++ " request to " ++ url ++ " failed after "
        ++ toString retries ++ " attempts"),
   (requestAttempts transport backoff (List.range' 1 retries)).2.1,
   (requestAttempts transport backoff (List.range' 1 retries)).2.2)

/-- Embeds `_get(path, ...)`: `url = f"{self.base}{path}"`, then the shared loop. -/
def getRequest (base path : String) (transport : Nat → Outcome) (retries : Nat)
    (backoff : ℚ) : Except String Json × List ℚ × Nat :=
  httpRequest "GET" (base ++ path) transport retries backoff

/-- Embeds `_post(path, json_body, ...)`: same loop with the POST verb. -/
def postRequest (base path : String) (transport : Nat → Outcome) (retries : Nat)
    (backoff : ℚ) : Except String Json × List ℚ × Nat :=
  httpRequest "POST" (base ++ path) transport retries backoff

/-! `list_subdomains` (lines 96-118) -/

/-- Embeds `full = s if s.endswith(domain) else f"{s}.{domain}" if s else None`
(the conditional associates as `s if ... else (f"..." if s else None)`). -/
def fragmentFull (domain s : String) : Option String :=
  if pyEndsWith s domain then some s
  else if !s.data.isEmpty then some (s ++ "." ++ domain)
  else none

/-- The hostname a fragment contributes: `if full: subdomains.append(full)`
appends only truthy (non-`None`, non-empty) values. -/
def fragmentContrib (domain s : String) : Option String :=
  match fragmentFull domain s with
  | some f => if f.data.isEmpty then none else some f
  | none => none

/-- Embeds `list_subdomains(domain)` applied to the decoded body of the 200
response.  `none` models an uncaught exception (a `subdomains` value that is
not iterable, or an element that is not a `str`).  Otherwise returns the
deduplicated sorted hostname list together with the raw response. -/
def list_subdomains (domain : String) (data : Json) : Option (List String × Json) :=
  match data with
  | .obj fields =>
      match Json.lookup fields "subdomains" with
      | some v =>
          -- for s in data.get('subdomains', []): ...
          match v.iter with
          | some items =>
              match items.mapM Json.asStr with
              | some frags =>
                  some (sortedDedup (frags.filterMap (fragmentContrib domain)), data)
              | none => none
          | none => none
      | none =>
          -- unexpected shape: subdomains stays [], fall through to return
          some (sortedDedup [], data)
  | _ => some (sortedDedup [], data)

/-- Embeds `isinstance(data, dict) and 'subdomains' in data`: the guard selecting
the parsing branch of `list_subdomains`. -/
def hasSubdomainsKey : Json → Bool
  | .obj fields => (Json.lookup fields "subdomains").isSome
  | _ => false

/-! `search_subdomains` (lines 123-160)

The transport is a function from the page number to the decoded 200 body of
`_post("/domains/list", body)` for that page (the request body carries the
apex-domain filter, `page_size` as `limit`, and the page number).  `none` /
`.error` models an uncaught exception. -/

/-- Embeds `hostname = r.get("hostname") or r.get("domain")` for one record. -/
def recordCandidate (fields : List (String × Json)) : Option Json :=
  pyOr (Json.lookup fields "hostname") (Json.lookup fields "domain")

/-- Embeds `if hostname and hostname.endswith(domain): all_subdomains.add(hostname)`
for one record's candidate: `.ok (some s)` when `s` is added, `.ok none` when
the record is skipped, `.error ()` when `.endswith` is called on a truthy
non-string (`AttributeError`). -/
def candidateAdd (domain : String) : Option Json → Except Unit (Option String)
  | none => .ok none
  | some v =>
      if v.truthy then
        match v with
        | .str s => .ok (if pyEndsWith s domain then some s else none)
        | _ => .error ()
      else .ok none

/-- Process one record: records must be dicts (`r.get` exists only on
`dict`). -/
def processRecord (domain : String) : Json → Except Unit (Option String)
  | .obj fields => candidateAdd domain (recordCandidate fields)
  | _ => .error ()

/-- One page of the loop body: `records = resp.get("records", [])`, iterate
the records adding matching hostnames, and report whether `if not records:`
stops the loop.  Returns the hostnames added on this page, in order. -/
def processPage (domain : String) (resp : Json) : Except Unit (List String × Bool) :=
  match resp with
  | .obj fields =>
      let recordsVal := (Json.lookup fields "records").getD (.arr [])
      match recordsVal.iter with
      | some items =>
          match items.mapM (processRecord domain) with
          | .ok hosts => .ok (hosts.filterMap id, !recordsVal.truthy)
          | .error e => .error e
      | none => .error ()
  | _ => .error ()

/-- The page loop `for page in range(1, max_pages + 1)` starting at `page`
with `fuel` iterations left: returns the hostnames added (in order), the raw
page responses collected, and the number of page requests issued. -/
def searchLoop (domain : String) (transport : Nat → Json) :
    Nat → Nat → Except Unit (List String × List Json × Nat)
  | _, 0 => .ok ([], [], 0)
  | page, fuel + 1 =>
      let resp := transport page
      match processPage domain resp with
      | .ok (hosts, stop) =>
          if stop then .ok (hosts, [resp], 1)
          else
            match searchLoop domain transport (page + 1) fuel with
            | .ok (hs, rs, n) => .ok (hosts ++ hs, resp :: rs, n + 1)
            | .error e => .error e
      | .error e => .error e

/-- Embeds `search_subdomains(domain, page_size, max_pages)` over the given
per-page transport: the deduplicated sorted hostname list, the raw pages,
and the number of page requests issued. -/
def search_subdomains (domain : String) (transport : Nat → Json) (max_pages : Nat) :
    Except Unit (List String × List Json × Nat) :=
  match searchLoop domain transport 1 max_pages with
  | .ok (hosts, pages, n) => .ok (sortedDedup hosts, pages, n)
  | .error e => .error e

/-! Aggregation utilities (lines 168-179) -/

/-- Embeds `merge_sources(*lists)`: union all hostname lists into a set and return
the sorted deduplicated sequence (`merged.update(l or [])` per argument;
absent/`None` arguments contribute nothing, which the `List` type already
guarantees here). -/
def merge_sources (lists : List (List String)) : List String :=
  sortedDedup lists.flatten

/-! Basic lemmas about the string order and `sortedDedup` -/

theorem char_toNat_inj {a b : Char} (h : a.toNat = b.toNat) : a = b :=
  Char.ext (UInt32.toNat.inj h)

theorem charListLe_total : ∀ as bs : List Char,
    charListLe as bs = true ∨ charListLe bs as = true := by
  intro as
  induction as with
  | nil => intro bs; left; rfl
  | cons a as ih =>
    intro bs
    cases bs with
    | nil => right; rfl
    | cons b bs =>
      by_cases hab : a = b
      · subst hab
        simpa [charListLe] using ih bs
      · have hne : a.toNat ≠ b.toNat := fun h => hab (char_toNat_inj h)
        simp [charListLe, hab, Ne.symm hab]
        omega

theorem charListLe_trans : ∀ as bs cs : List Char,
    charListLe as bs = true → charListLe bs cs = true → charListLe as cs = true := by
  intro as
  induction as with
  | nil => intro bs cs _ _; rfl
  | cons a as ih =>
    intro bs cs h1 h2
    cases bs with
    | nil => simp [charListLe] at h1
    | cons b bs =>
      cases cs with
      | nil => simp [charListLe] at h2
      | cons c cs =>
        by_cases hab : a = b
        · subst hab
          simp only [charListLe, if_pos rfl] at h1
          by_cases hac : a = c
          · subst hac
            simp only [charListLe, if_pos rfl] at h2 ⊢
            exact ih bs cs h1 h2
          · simpa [charListLe, hac] using h2
        · simp only [charListLe, if_neg hab, decide_eq_true_eq] at h1
          by_cases hbc : b = c
          · subst hbc
            simpa [charListLe, hab, decide_eq_true_eq] using h1
          · simp only [charListLe, if_neg hbc, decide_eq_true_eq] at h2
            have hac : a.toNat < c.toNat := Nat.lt_trans h1 h2
            have hne : a ≠ c := fun h => by subst h; omega
            simp [charListLe, hne, decide_eq_true_eq]
            exact hac

theorem charListLe_antisymm : ∀ as bs : List Char,
    charListLe as bs = true → charListLe bs as = true → as = bs := by
  intro as
  induction as with
  | nil =>
    intro bs _ h2
    cases bs with
    | nil => rfl
    | cons b bs => simp [charListLe] at h2
  | cons a as ih =>
    intro bs h1 h2
    cases bs with
    | nil => simp [charListLe] at h1
    | cons b bs =>
      by_cases hab : a = b
      · subst hab
        simp only [charListLe, if_pos rfl] at h1 h2
        rw [ih bs h1 h2]
      · simp only [charListLe, if_neg hab, decide_eq_true_eq] at h1
        simp only [charListLe, if_neg (Ne.symm hab), decide_eq_true_eq] at h2
        omega

instance : IsTotal String strLeR :=
  ⟨fun a b => charListLe_total a.data b.data⟩

instance : IsTrans String strLeR :=
  ⟨fun a b c => charListLe_trans a.data b.data c.data⟩

instance : IsAntisymm String strLeR :=
  ⟨fun a b h1 h2 => by
    cases a with
    | mk da =>
      cases b with
      | mk db => exact congrArg String.mk (charListLe_antisymm da db h1 h2)⟩

theorem sortedDedup_perm (l : List String) : List.Perm (sortedDedup l) l.dedup :=
  List.perm_insertionSort strLeR l.dedup

theorem sortedDedup_sorted (l : List String) : (sortedDedup l).Sorted strLeR :=
  List.sorted_insertionSort strLeR l.dedup

theorem sortedDedup_nodup (l : List String) : (sortedDedup l).Nodup :=
  (sortedDedup_perm l).nodup_iff.mpr l.nodup_dedup

theorem mem_sortedDedup {a : String} {l : List String} :
    a ∈ sortedDedup l ↔ a ∈ l :=
  (sortedDedup_perm l).mem_iff.trans List.mem_dedup

theorem sortedDedup_eq_of_mem_iff {l₁ l₂ : List String}
    (h : ∀ a, a ∈ l₁ ↔ a ∈ l₂) : sortedDedup l₁ = sortedDedup l₂ :=
  List.eq_of_perm_of_sorted
    ((List.perm_ext_iff_of_nodup (sortedDedup_nodup l₁) (sortedDedup_nodup l₂)).mpr
      (fun a => mem_sortedDedup.trans ((h a).trans mem_sortedDedup.symm)))
    (sortedDedup_sorted l₁) (sortedDedup_sorted l₂)

theorem data_isEmpty_false {s : String} (h : s ≠ "") : s.data.isEmpty = false := by
  cases s with
  | mk l =>
    cases l with
    | nil => exact absurd rfl h
    | cons c cs => rfl

theorem eq_empty_of_data_isEmpty {s : String} (h : s.data.isEmpty = true) : s = "" := by
  cases s with
  | mk l =>
    cases l with
    | nil => rfl
    | cons c cs => simp [List.isEmpty] at h

/-! Lemmas about the retry loop -/

theorem requestAttempts_exhausted (transport : Nat → Outcome) (backoff : ℚ) :
    ∀ attempts : List Nat, (∀ a ∈ attempts, (transport a).is200 = false) →
    (requestAttempts transport backoff attempts).1 = none ∧
    (requestAttempts transport backoff attempts).2.2 = attempts.length := by
  intro attempts
  induction attempts with
  | nil => intro _; exact ⟨rfl, rfl⟩
  | cons a rest ih =>
    intro h
    have hrest := ih (fun x hx => h x (List.mem_cons_of_mem a hx))
    have ha := h a (List.mem_cons_self a rest)
    cases ht : transport a with
    | response code body =>
      have h200 : code ≠ 200 := by
        intro hc; subst hc; rw [ht] at ha; exact Bool.noConfusion ha
      by_cases h429 : code = 429
      · simp [requestAttempts, ht, h200, h429, hrest.1, hrest.2]
      · by_cases h400 : 400 ≤ code
        · simp [requestAttempts, ht, h200, h429, h400, hrest.1, hrest.2]
        · simp [requestAttempts, ht, h200, h429, h400, hrest.1, hrest.2]
    | transportError =>
      simp [requestAttempts, ht, hrest.1, hrest.2]

theorem httpRequest_exhausted (verb url : String) (transport : Nat → Outcome)
    (retries : Nat) (backoff : ℚ)
    (h : ∀ a, 1 ≤ a → a ≤ retries → (transport a).is200 = false) :
    (httpRequest verb url transport retries backoff).1
      = .error (verb ++ " request to " ++ url ++ " failed after "
          ++ toString retries ++ " attempts") ∧
    (httpRequest verb url transport retries backoff).2.2 = retries := by
  have hall : ∀ a ∈ List.range' 1 retries, (transport a).is200 = false := by
    intro a ha
    rw [List.mem_range'] at ha
    obtain ⟨i, hilt, rfl⟩ := ha
    exact h _ (by omega) (by omega)
  have hr := requestAttempts_exhausted transport backoff (List.range' 1 retries) hall
  unfold httpRequest
  rw [hr.1]
  exact ⟨rfl, by rw [hr.2, List.length_range']⟩

/-! Lemmas about the pagination loop -/

theorem searchLoop_succ_stop {domain : String} {transport : Nat → Json}
    {page fuel : Nat} {hosts : List String}
    (hp : processPage domain (transport page) = .ok (hosts, true)) :
    searchLoop domain transport page (fuel + 1) = .ok (hosts, [transport page], 1) := by
  simp [searchLoop, hp]

theorem searchLoop_succ_cont {domain : String} {transport : Nat → Json}
    {page fuel : Nat} {hosts : List String}
    (hp : processPage domain (transport page) = .ok (hosts, false)) :
    searchLoop domain transport page (fuel + 1)
      = match searchLoop domain transport (page + 1) fuel with
        | .ok (hs, rs, n) => .ok (hosts ++ hs, transport page :: rs, n + 1)
        | .error e => .error e := by
  simp [searchLoop, hp]

theorem searchLoop_le_fuel (domain : String) (transport : Nat → Json) :
    ∀ (fuel page : Nat) (hs : List String) (rs : List Json) (n : Nat),
    searchLoop domain transport page fuel = .ok (hs, rs, n) → n ≤ fuel := by
  intro fuel
  induction fuel with
  | zero =>
    intro page hs rs n h
    simp only [searchLoop] at h
    cases h
    exact Nat.le_refl 0
  | succ fuel ih =>
    intro page hs rs n h
    cases hp : processPage domain (transport page) with
    | error e =>
      simp [searchLoop, hp] at h
    | ok pr =>
      obtain ⟨hosts, stop⟩ := pr
      cases stop with
      | true =>
        rw [searchLoop_succ_stop hp] at h
        cases h
        omega
      | false =>
        rw [searchLoop_succ_cont hp] at h
        cases hrec : searchLoop domain transport (page + 1) fuel with
        | error e => rw [hrec] at h; cases h
        | ok tr =>
          obtain ⟨hs', rs', n'⟩ := tr
          rw [hrec] at h
          cases h
          have := ih (page + 1) hs' rs' n' hrec
          omega

theorem searchLoop_first_stop (domain : String) (transport : Nat → Json) :
    ∀ (fuel page k : Nat) (hostsk : List String),
    page ≤ k → k < page + fuel →
    (∀ j, page ≤ j → j < k →
      ∃ h, processPage domain (transport j) = .ok (h, false)) →
    processPage domain (transport k) = .ok (hostsk, true) →
    ∃ hs rs, searchLoop domain transport page fuel = .ok (hs, rs, k - page + 1) := by
  intro fuel
  induction fuel with
  | zero =>
    intro page k hostsk h1 h2 _ _
    omega
  | succ fuel ih =>
    intro page k hostsk h1 h2 hmid hk
    by_cases hpk : page = k
    · subst hpk
      refine ⟨hostsk, [transport page], ?_⟩
      rw [searchLoop_succ_stop hk]
      have : page - page + 1 = 1 := by omega
      rw [this]
    · have hlt : page < k := by omega
      obtain ⟨h0, hp0⟩ := hmid page (Nat.le_refl page) hlt
      obtain ⟨hs, rs, hrec⟩ := ih (page + 1) k hostsk (by omega) (by omega)
        (fun j hj1 hj2 => hmid j (by omega) hj2) hk
      refine ⟨h0 ++ hs, transport page :: rs, ?_⟩
      rw [searchLoop_succ_cont hp0, hrec]
      show Except.ok (h0 ++ hs, transport page :: rs, k - (page + 1) + 1 + 1)
        = Except.ok (h0 ++ hs, transport page :: rs, k - page + 1)
      have : k - (page + 1) + 1 + 1 = k - page + 1 := by omega
      rw [this]

theorem candidateAdd_ok_some {domain s : String} {c : Option Json}
    (h : candidateAdd domain c = .ok (some s)) : pyEndsWith s domain = true := by
  cases c with
  | none => cases h
  | some v =>
    by_cases ht : v.truthy = true
    · cases v with
      | str s' =>
        simp only [candidateAdd, ht, if_pos rfl] at h
        by_cases he : pyEndsWith s' domain = true
        · rw [if_pos he] at h
          cases h
          exact he
        · rw [if_neg he] at h
          cases h
      | null => simp [candidateAdd, ht] at h
      | bool b => simp [candidateAdd, ht] at h
      | num n => simp [candidateAdd, ht] at h
      | arr items => simp [candidateAdd, ht] at h
      | obj fields => simp [candidateAdd, ht] at h
    · simp only [candidateAdd, ht, if_neg] at h
      cases h

theorem mapM_processRecord_mem {domain : String} :
    ∀ (items : List Json) (results : List (Option String)),
    items.mapM (processRecord domain) = .ok results →
    ∀ o ∈ results, ∃ j ∈ items, processRecord domain j = .ok o := by
  intro items
  induction items with
  | nil =>
    intro results h o ho
    cases h
    cases ho
  | cons j rest ih =>
    intro results h o ho
    rw [List.mapM_cons] at h
    cases hj : processRecord domain j with
    | error e => rw [hj] at h; cases h
    | ok o0 =>
      rw [hj] at h
      cases hrest : rest.mapM (processRecord domain) with
      | error e =>
        rw [hrest] at h
        cases h
      | ok os =>
        rw [hrest] at h
        cases h
        cases ho with
        | head => exact ⟨j, List.mem_cons_self j rest, hj⟩
        | tail _ hmem =>
          obtain ⟨j', hj', hpr⟩ := ih os hrest o hmem
          exact ⟨j', List.mem_cons_of_mem j hj', hpr⟩

theorem processPage_iter_none {domain : String} {fields : List (String × Json)}
    (hit : ((Json.lookup fields "records").getD (.arr [])).iter = none) :
    processPage domain (.obj fields) = .error () := by
  simp [processPage, hit]

theorem processPage_map_err {domain : String} {fields : List (String × Json)}
    {items : List Json} {e : Unit}
    (hit : ((Json.lookup fields "records").getD (.arr [])).iter = some items)
    (hm : items.mapM (processRecord domain) = .error e) :
    processPage domain (.obj fields) = .error e := by
  simp only [processPage, hit]
  rw [hm]

theorem processPage_map_ok {domain : String} {fields : List (String × Json)}
    {items : List Json} {results : List (Option String)}
    (hit : ((Json.lookup fields "records").getD (.arr [])).iter = some items)
    (hm : items.mapM (processRecord domain) = .ok results) :
    processPage domain (.obj fields)
      = .ok (results.filterMap id,
          !((Json.lookup fields "records").getD (.arr [])).truthy) := by
  simp only [processPage, hit]
  rw [hm]

theorem processPage_endsWith {domain : String} {resp : Json}
    {hosts : List String} {stop : Bool}
    (h : processPage domain resp = .ok (hosts, stop)) :
    ∀ s ∈ hosts, pyEndsWith s domain = true := by
  intro s hs
  cases resp with
  | obj fields =>
    cases hit : ((Json.lookup fields "records").getD (.arr [])).iter with
    | none => rw [processPage_iter_none hit] at h; cases h
    | some items =>
      cases hm : items.mapM (processRecord domain) with
      | error e => rw [processPage_map_err hit hm] at h; cases h
      | ok results =>
        rw [processPage_map_ok hit hm] at h
        cases h
        rw [List.mem_filterMap] at hs
        obtain ⟨o, ho, hid⟩ := hs
        cases o with
        | none => cases hid
        | some s' =>
          cases hid
          obtain ⟨j, hj, hpr⟩ := mapM_processRecord_mem items results hm (some s) ho
          cases j with
          | obj rfields => exact candidateAdd_ok_some hpr
          | null => cases hpr
          | bool b => cases hpr
          | num n => cases hpr
          | str s0 => cases hpr
          | arr xs => cases hpr
  | null => cases h
  | bool b => cases h
  | num n => cases h
  | str s0 => cases h
  | arr xs => cases h

theorem searchLoop_endsWith (domain : String) (transport : Nat → Json) :
    ∀ (fuel page : Nat) (hs : List String) (rs : List Json) (n : Nat),
    searchLoop domain transport page fuel = .ok (hs, rs, n) →
    ∀ s ∈ hs, pyEndsWith s domain = true := by
  intro fuel
  induction fuel with
  | zero =>
    intro page hs rs n h s hsmem
    simp only [searchLoop] at h
    cases h
    cases hsmem
  | succ fuel ih =>
    intro page hs rs n h s hsmem
    cases hp : processPage domain (transport page) with
    | error e => simp [searchLoop, hp] at h
    | ok pr =>
      obtain ⟨hosts, stop⟩ := pr
      cases stop with
      | true =>
        rw [searchLoop_succ_stop hp] at h
        cases h
        exact processPage_endsWith hp s hsmem
      | false =>
        rw [searchLoop_succ_cont hp] at h
        cases hrec : searchLoop domain transport (page + 1) fuel with
        | error e => rw [hrec] at h; cases h
        | ok tr =>
          obtain ⟨hs', rs', n'⟩ := tr
          rw [hrec] at h
          cases h
          rw [List.mem_append] at hsmem
          cases hsmem with
          | inl hmem => exact processPage_endsWith hp s hmem
          | inr hmem => exact ih (page + 1) hs' rs' n' hrec s hmem

/-! Claim theorems -/

/-- C5: `merge_sources` is commutative in its two arguments, its output has
no duplicates and is sorted lexicographically, and merging a list with
itself equals merging it once. -/
theorem merge_sources_spec :
    (∀ A B : List String, merge_sources [A, B] = merge_sources [B, A]) ∧
    (∀ lists : List (List String),
      (merge_sources lists).Nodup ∧ (merge_sources lists).Sorted strLeR) ∧
    (∀ A : List String, merge_sources [A, A] = merge_sources [A]) := by
  refine ⟨fun A B => ?_, fun lists => ⟨sortedDedup_nodup _, sortedDedup_sorted _⟩,
    fun A => ?_⟩
  · unfold merge_sources
    apply sortedDedup_eq_of_mem_iff
    intro a
    simp only [List.flatten_cons, List.flatten_nil, List.append_nil, List.mem_append]
    tauto
  · unfold merge_sources
    apply sortedDedup_eq_of_mem_iff
    intro a
    simp only [List.flatten_cons, List.flatten_nil, List.append_nil, List.mem_append]
    tauto

/-- C7: the constructor resolves the credential from the explicit argument
first, falls back to the environment variable, and raises the configuration
error exactly when neither source yields a non-empty credential. -/
theorem client_credential_resolution :
    (∀ (k : String) (env : Option String), k ≠ "" → clientInit (some k) env = .ok k) ∧
    (∀ v : String, v ≠ "" → clientInit none (some v) = .ok v) ∧
    (∀ a e : Option String,
      isError (clientInit a e) = true ↔ credPresent a = false ∧ credPresent e = false) := by
  refine ⟨fun k env hk => ?_, fun v hv => ?_, fun a e => ?_⟩
  · simp [clientInit, resolveCredential, data_isEmpty_false hk]
  · simp [clientInit, resolveCredential, data_isEmpty_false hv]
  · cases a with
    | none =>
      cases e with
      | none => simp [clientInit, resolveCredential, credPresent, isError]
      | some v =>
        cases hve : v.data.isEmpty <;>
          simp [clientInit, resolveCredential, credPresent, isError, hve]
    | some k =>
      cases hke : k.data.isEmpty with
      | false => simp [clientInit, resolveCredential, credPresent, isError, hke]
      | true =>
        cases e with
        | none => simp [clientInit, resolveCredential, credPresent, isError, hke]
        | some v =>
          cases hve : v.data.isEmpty <;>
            simp [clientInit, resolveCredential, credPresent, isError, hke, hve]

/-- C7 witness: a non-empty explicit key wins over the environment. -/
theorem client_credential_resolution_witness :
    clientInit (some "expl") (some "envv") = .ok "expl" :=
  client_credential_resolution.1 "expl" (some "envv") (by decide)

/-- C10: an explicit empty `api_key` behaves exactly like passing none, and
construction succeeds with the environment value whenever it is non-empty. -/
theorem client_empty_key_fallback :
    (∀ env : Option String, clientInit (some "") env = clientInit none env) ∧
    (∀ v : String, v ≠ "" → clientInit (some "") (some v) = .ok v) := by
  constructor
  · intro env
    rfl
  · intro v hv
    simp [clientInit, resolveCredential, data_isEmpty_false hv]

/-- C10 witness: the empty explicit key falls back to the environment. -/
theorem client_empty_key_fallback_witness :
    clientInit (some "") (some "secret") = .ok "secret" :=
  client_empty_key_fallback.2 "secret" (by decide)

/-- C8: when the 200 body is not a dict containing a `subdomains` field,
`list_subdomains` does not raise and returns the empty hostname list with
the raw response. -/
theorem list_subdomains_malformed (domain : String) (data : Json)
    (h : hasSubdomainsKey data = false) :
    list_subdomains domain data = some ([], data) := by
  cases data with
  | obj fields =>
    simp only [hasSubdomainsKey] at h
    cases hl : Json.lookup fields "subdomains" with
    | some v => rw [hl] at h; exact Bool.noConfusion h
    | none =>
      simp only [list_subdomains, hl]
      rfl
  | null => rfl
  | bool b => rfl
  | num n => rfl
  | str s => rfl
  | arr items => rfl

/-- C8 witness: a non-dict 200 body degrades to an empty contribution. -/
theorem list_subdomains_malformed_witness :
    list_subdomains "example.com" (.str "oops") = some ([], .str "oops") :=
  list_subdomains_malformed "example.com" (.str "oops") rfl

/-- C2: a fragment contributes nothing when empty, itself when it already
ends with the domain, and `s ++ "." ++ domain` otherwise; on the response
`obj [subdomains: [www, api.example.com, <empty>]]` for `example.com` the
call returns `[api.example.com, www.example.com]`. -/
theorem list_fragment_spec :
    (∀ domain s : String,
      (s = "" → fragmentContrib domain s = none) ∧
      (s ≠ "" → pyEndsWith s domain = true → fragmentContrib domain s = some s) ∧
      (s ≠ "" → pyEndsWith s domain = false →
        fragmentContrib domain s = some (s ++ "." ++ domain))) ∧
    list_subdomains "example.com"
      (.obj [("subdomains", .arr [.str "www", .str "api.example.com", .str ""])])
      = some (["api.example.com", "www.example.com"],
          .obj [("subdomains", .arr [.str "www", .str "api.example.com", .str ""])]) := by
  refine ⟨fun domain s => ⟨?_, ?_, ?_⟩, by rfl⟩
  · rintro rfl
    cases he : pyEndsWith "" domain with
    | true => simp [fragmentContrib, fragmentFull, he]
    | false => simp [fragmentContrib, fragmentFull, he]
  · intro hne he
    simp [fragmentContrib, fragmentFull, he, data_isEmpty_false hne]
  · intro hne he
    have hcat : (s ++ "." ++ domain).data.isEmpty = false := by
      cases s with
      | mk l =>
        cases domain with
        | mk dl =>
          cases l with
          | nil => exact absurd rfl hne
          | cons c cs => rfl
    simp [fragmentContrib, fragmentFull, he, data_isEmpty_false hne, hcat]

/-- C2 witness: the fragment `www` becomes `www.example.com`. -/
theorem list_fragment_spec_witness :
    fragmentContrib "example.com" "www" = some "www.example.com" :=
  (list_fragment_spec.1 "example.com" "www").2.2 (by decide) rfl

/-- C9 is false as stated: in the record `{hostname: <empty>, domain:
x.example.com}` the `hostname` field is present, yet the candidate is the
`domain` field, because the source tests truthiness of the value
(`r.get("hostname") or r.get("domain")`), not presence of the key. -/
theorem record_candidate_counterexample :
    Json.lookup [("hostname", .str ""), ("domain", .str "x.example.com")] "hostname"
      = some (.str "")
    ∧ recordCandidate [("hostname", .str ""), ("domain", .str "x.example.com")]
      = some (.str "x.example.com") :=
  ⟨rfl, rfl⟩

/-- C9 amended: the candidate hostname is the record's `hostname` value when
that value is present and truthy (the `domain` field is then not consulted);
when `hostname` is absent or its value is falsy, the candidate is the
`domain` lookup. -/
theorem record_candidate_amended :
    (∀ (fields : List (String × Json)) (v : Json),
      Json.lookup fields "hostname" = some v → v.truthy = true →
      recordCandidate fields = some v) ∧
    (∀ (fields : List (String × Json)) (v : Json),
      Json.lookup fields "hostname" = some v → v.truthy = false →
      recordCandidate fields = Json.lookup fields "domain") ∧
    (∀ fields : List (String × Json),
      Json.lookup fields "hostname" = none →
      recordCandidate fields = Json.lookup fields "domain") := by
  refine ⟨fun fields v hl ht => ?_, fun fields v hl ht => ?_, fun fields hl => ?_⟩
  · simp [recordCandidate, pyOr, hl, ht]
  · simp [recordCandidate, pyOr, hl, ht]
  · simp [recordCandidate, pyOr, hl]

/-- C9 witness: a truthy `hostname` value is the candidate. -/
theorem record_candidate_amended_witness :
    recordCandidate [("hostname", .str "h.example.com"), ("domain", .str "other")]
      = some (.str "h.example.com") :=
  record_candidate_amended.1 [("hostname", .str "h.example.com"), ("domain", .str "other")]
    (.str "h.example.com") rfl rfl

/-- C3: when no attempt returns HTTP 200, both verbs raise the exhaustion
error after exactly `retries` attempts, and the message names the requested
URL (base plus path) and the attempt count. -/
theorem request_exhaustion (base path : String) (transport : Nat → Outcome)
    (retries : Nat) (backoff : ℚ)
    (h : ∀ a, 1 ≤ a → a ≤ retries → (transport a).is200 = false) :
    ((getRequest base path transport retries backoff).1
        = .error ("GET request to " ++ (base ++ path) ++ " failed after "
            ++ toString retries ++ " attempts")
      ∧ (getRequest base path transport retries backoff).2.2 = retries)
    ∧ ((postRequest base path transport retries backoff).1
        = .error ("POST request to " ++ (base ++ path) ++ " failed after "
            ++ toString retries ++ " attempts")
      ∧ (postRequest base path transport retries backoff).2.2 = retries) :=
  ⟨httpRequest_exhausted "GET" (base ++ path) transport retries backoff h,
   httpRequest_exhausted "POST" (base ++ path) transport retries backoff h⟩

/-- C3 witness: a transport that always faults exhausts 3 retries. -/
theorem request_exhaustion_witness :
    (getRequest "b" "/p" (fun _ => .transportError) 3 1).1
      = .error "GET request to b/p failed after 3 attempts"
    ∧ (getRequest "b" "/p" (fun _ => .transportError) 3 1).2.2 = 3 :=
  (request_exhaustion "b" "/p" (fun _ => .transportError) 3 1
    (fun _ _ _ => rfl)).1

/-- C6: on 429, 429, then 200, the request layer returns the 200 body and
the sleeps performed before the success are `backoff * 1` then
`backoff * 2`, strictly increasing for positive backoff. -/
theorem retry_backoff_success (base path : String) (transport : Nat → Outcome)
    (j1 j2 body : Json) (retries : Nat) (backoff : ℚ)
    (h1 : transport 1 = .response 429 j1) (h2 : transport 2 = .response 429 j2)
    (h3 : transport 3 = .response 200 body) (hr : 3 ≤ retries) :
    getRequest base path transport retries backoff
      = (.ok body, [backoff * 1, backoff * 2], 3)
    ∧ (0 < backoff → backoff * 1 < backoff * 2) := by
  constructor
  · obtain ⟨k, rfl⟩ : ∃ k, retries = 3 + k := ⟨retries - 3, by omega⟩
    have hrange : List.range' 1 (3 + k) = 1 :: 2 :: 3 :: List.range' 4 k := by
      rw [show 3 + k = ((k + 1) + 1) + 1 from by omega]
      rw [List.range'_succ, List.range'_succ, List.range'_succ]
    unfold getRequest httpRequest
    rw [hrange]
    simp only [requestAttempts, h1, h2, h3]
    norm_num
  · intro hb
    have h12 : (1 : ℚ) < 2 := by norm_num
    exact (mul_lt_mul_left hb).mpr h12

/-- C6 witness: 429 twice then 200 with backoff 1 sleeps 1 then 2. -/
theorem retry_backoff_success_witness :
    getRequest "b" "/p"
      (fun a => if a = 3 then .response 200 .null else .response 429 .null) 3 1
      = (.ok .null, [1 * 1, 1 * 2], 3)
    ∧ ((0 : ℚ) < 1 → (1 : ℚ) * 1 < 1 * 2) :=
  retry_backoff_success "b" "/p"
    (fun a => if a = 3 then .response 200 .null else .response 429 .null)
    .null .null .null 3 1 rfl rfl rfl (by decide)

/-- C4: `search_subdomains` stops at the first page whose `records` list is
empty — in particular it issues exactly 3 page requests when page 3 is the
first empty one and `max_pages` is at least 3 — and it never issues more
than `max_pages` requests. -/
theorem search_pagination (domain : String) (transport : Nat → Json)
    (max_pages : Nat) :
    (∀ (k : Nat) (hostsk : List String), 1 ≤ k → k ≤ max_pages →
      (∀ j, 1 ≤ j → j < k → ∃ h, processPage domain (transport j) = .ok (h, false)) →
      processPage domain (transport k) = .ok (hostsk, true) →
      ∃ hs rs, search_subdomains domain transport max_pages = .ok (hs, rs, k)) ∧
    (∀ (a1 a2 a3 : List String), 3 ≤ max_pages →
      processPage domain (transport 1) = .ok (a1, false) →
      processPage domain (transport 2) = .ok (a2, false) →
      processPage domain (transport 3) = .ok (a3, true) →
      ∃ hs rs, search_subdomains domain transport max_pages = .ok (hs, rs, 3)) ∧
    (∀ (hs : List String) (rs : List Json) (n : Nat),
      search_subdomains domain transport max_pages = .ok (hs, rs, n) →
      n ≤ max_pages) := by
  have hfirst : ∀ (k : Nat) (hostsk : List String), 1 ≤ k → k ≤ max_pages →
      (∀ j, 1 ≤ j → j < k → ∃ h, processPage domain (transport j) = .ok (h, false)) →
      processPage domain (transport k) = .ok (hostsk, true) →
      ∃ hs rs, search_subdomains domain transport max_pages = .ok (hs, rs, k) := by
    intro k hostsk hk1 hkm hmid hk
    obtain ⟨hs, rs, hloop⟩ :=
      searchLoop_first_stop domain transport max_pages 1 k hostsk hk1 (by omega) hmid hk
    refine ⟨sortedDedup hs, rs, ?_⟩
    unfold search_subdomains
    rw [hloop]
    show Except.ok (sortedDedup hs, rs, k - 1 + 1) = Except.ok (sortedDedup hs, rs, k)
    rw [show k - 1 + 1 = k from by omega]
  refine ⟨hfirst, fun a1 a2 a3 h3 hp1 hp2 hp3 => ?_, fun hs rs n h => ?_⟩
  · refine hfirst 3 a3 (by omega) h3 (fun j hj1 hj2 => ?_) hp3
    have hj : j = 1 ∨ j = 2 := by omega
    rcases hj with rfl | rfl
    · exact ⟨a1, hp1⟩
    · exact ⟨a2, hp2⟩
  · unfold search_subdomains at h
    cases hloop : searchLoop domain transport 1 max_pages with
    | error e => rw [hloop] at h; cases h
    | ok tr =>
      obtain ⟨hs', rs', n'⟩ := tr
      rw [hloop] at h
      have h' : Except.ok (ε := Unit) (sortedDedup hs', rs', n') = Except.ok (hs, rs, n) := h
      cases h'
      exact searchLoop_le_fuel domain transport max_pages 1 _ _ _ hloop

/-- C4 witness: two non-empty pages then an empty page 3 stop the search at
exactly 3 requests with `max_pages = 10`. -/
theorem search_pagination_witness :
    ∃ hs rs, search_subdomains "example.com"
      (fun p => if p ≤ 2
        then Json.obj [("records", .arr [.obj [("hostname", .str "a.example.com")]])]
        else .obj [("records", .arr [])]) 10
      = .ok (hs, rs, 3) :=
  (search_pagination "example.com"
    (fun p => if p ≤ 2
      then Json.obj [("records", .arr [.obj [("hostname", .str "a.example.com")]])]
      else .obj [("records", .arr [])]) 10).2.1
    ["a.example.com"] ["a.example.com"] [] (by decide) rfl rfl rfl

/-- C1 is false as stated: `evil-example.com` does end with `example.com`
(the string is `evil-` followed by `example.com`), so the suffix test is
true and `search_subdomains` includes the record instead of excluding it. -/
theorem apex_filter_counterexample :
    pyEndsWith "evil-example.com" "example.com" = true
    ∧ search_subdomains "example.com"
        (fun p => if p = 1
          then .obj [("records", .arr [.obj [("hostname", .str "evil-example.com")]])]
          else .obj [("records", .arr [])]) 10
      = .ok (["evil-example.com"],
          [.obj [("records", .arr [.obj [("hostname", .str "evil-example.com")]])],
           .obj [("records", .arr [])]], 2) :=
  ⟨rfl, rfl⟩

/-- C1 amended: a selected non-empty string hostname is added if and only if
it ends with the target domain (plain suffix match, no label-boundary
check), so for target `example.com` both `api.example.com` and
`evil-example.com` are included; every hostname in the aggregate set ends
with the target domain. -/
theorem apex_filter_amended :
    (∀ (domain s : String) (fields : List (String × Json)),
      recordCandidate fields = some (.str s) → s ≠ "" →
      (candidateAdd domain (recordCandidate fields) = .ok (some s)
        ↔ pyEndsWith s domain = true)) ∧
    (∀ (transport : Nat → Json) (max_pages : Nat) (hs : List String)
        (rs : List Json) (n : Nat) (domain : String),
      search_subdomains domain transport max_pages = .ok (hs, rs, n) →
      ∀ s ∈ hs, pyEndsWith s domain = true) ∧
    search_subdomains "example.com"
      (fun p => if p = 1
        then .obj [("records", .arr [.obj [("hostname", .str "evil-example.com")],
          .obj [("hostname", .str "api.example.com")]])]
        else .obj [("records", .arr [])]) 10
      = .ok (["api.example.com", "evil-example.com"],
          [.obj [("records", .arr [.obj [("hostname", .str "evil-example.com")],
            .obj [("hostname", .str "api.example.com")]])],
           .obj [("records", .arr [])]], 2) := by
  refine ⟨fun domain s fields hc hsne => ?_,
    fun transport mp hs rs n domain h s hmem => ?_, by rfl⟩
  · rw [hc]
    have ht : (Json.str s).truthy = true := by
      simp [Json.truthy, data_isEmpty_false hsne]
    constructor
    · intro hadd
      exact candidateAdd_ok_some hadd
    · intro he
      simp [candidateAdd, ht, he]
  · unfold search_subdomains at h
    cases hloop : searchLoop domain transport 1 mp with
    | error e => rw [hloop] at h; cases h
    | ok tr =>
      obtain ⟨hs', rs', n'⟩ := tr
      rw [hloop] at h
      have h' : Except.ok (ε := Unit) (sortedDedup hs', rs', n') = Except.ok (hs, rs, n) := h
      cases h'
      exact searchLoop_endsWith domain transport mp 1 _ _ _ hloop s
        (mem_sortedDedup.mp hmem)

/-- C1 witness: the filter admits `evil-example.com` for `example.com`. -/
theorem apex_filter_amended_witness :
    candidateAdd "example.com"
      (recordCandidate [("hostname", .str "evil-example.com")])
      = .ok (some "evil-example.com") :=
  (apex_filter_amended.1 "example.com" "evil-example.com"
    [("hostname", .str "evil-example.com")] rfl (by decide)).mpr rfl

end SubEnum
